import Mathlib

/-!
# Token Registry: shallow embedding and verification

Shallow embedding of `src/lib/stores/tokens/tokens.store.ts`, the token
registry of the application: connect/disconnect lifecycle, lookup engine
(by address, symbol, and Drips asset id), and the custom-token
add/remove/ban workflow.

Modelling conventions:
* TypeScript `number` chain ids become `Int`; strings stay `String`
  (`toLowerCase` models `String.prototype.toLowerCase`, which on the
  addresses and symbols in play — ASCII hex addresses and ticker
  symbols — agrees with it).
* The module-level mutable state (`chainId`, `tokenList`, `connected`
  svelte stores) becomes an explicit `RegistryState` record threaded
  through every operation.
* `assert(cond, msg)` throwing becomes `Except StoreError`; a throw
  leaves the module state as it was, which `applyMutOp` captures by
  returning the pre-state on `.error`.
* The external collaborators are parameters: the uniswap default token
  list and the asset-id resolver live in `Env`; the durable
  custom-token store (`stored-custom-tokens`, not part of the sources)
  is a `List StoredToken` field of the state, with its operations
  modelled from the spec (see the individual doc comments).
* `browser` is taken to be `true` (client-side execution): on connect
  the durable custom tokens are read and filtered.
-/

/-- JavaScript `String.prototype.toLowerCase()`: lower-case every character.
(On the ASCII hex addresses and ticker symbols in play this per-character
mapping is exact.) -/
def toLowerCase (s : String) : String :=
  String.mk (s.data.map Char.toLower)

/-- TypeScript `TokenInfo` from `@uniswap/token-lists`:
address, chainId, symbol, decimals, name, optional logoURI. -/
structure TokenInfo where
  address : String
  chainId : Int
  symbol : String
  decimals : Int
  name : String
  logoURI : Option String := none
deriving DecidableEq, Repr

/-- `TokenInfoWrapper = DefaultTokenInfoWrapper | CustomTokenInfoWrapper`:
a token entry tagged with its source; custom entries carry a ban flag. -/
inductive TokenInfoWrapper where
  | defaultToken (info : TokenInfo)
  | customToken (info : TokenInfo) (banned : Bool)
deriving DecidableEq, Repr

/-- The `info` field shared by both wrapper variants. -/
def TokenInfoWrapper.info : TokenInfoWrapper → TokenInfo
  | .defaultToken i => i
  | .customToken i _ => i

/-- `t.source === 'custom'` of the TypeScript wrapper. -/
def TokenInfoWrapper.isCustom : TokenInfoWrapper → Bool
  | .defaultToken _ => false
  | .customToken _ _ => true

/-- One record of the durable custom-token store: the persisted
`CustomTokenInfoWrapper` minus its constant `source: 'custom'` tag. -/
structure StoredToken where
  info : TokenInfo
  banned : Bool
deriving DecidableEq, Repr

/-- The module-level state of `tokens.store.ts`: the `chainId` variable,
the `tokenList` and `connected` svelte stores, plus the durable
custom-token store backing `stored-custom-tokens`. -/
structure RegistryState where
  chainId : Option Int
  tokenList : Option (List TokenInfoWrapper)
  connected : Bool
  stored : List StoredToken
deriving DecidableEq, Repr

/-- External collaborators: the static uniswap default token list and the
asset-id resolver. `getAddressFromId` models the composite
`(s : String) => Utils.Asset.getAddressFromId(BigInt(s))`, a pure external
function. -/
structure Env where
  defaultTokens : List TokenInfo
  getAddressFromId : String → String

/-- Error kinds surfaced by the `assert` calls of the custom token manager. -/
inductive StoreError where
  | alreadyExists
  | notFound
deriving DecidableEq, Repr

/-- The initial, disconnected module state over a given durable store. -/
def initialState (stored : List StoredToken) : RegistryState :=
  { chainId := none, tokenList := none, connected := false, stored := stored }

/-- `connect(toChainId)`: sets `chainId`, reads the durable custom tokens
filtered to the chain, filters the default list to the chain, and sets
`tokenList` to defaults followed by customs; sets `connected`. -/
def connect (env : Env) (s : RegistryState) (toChainId : Int) : RegistryState :=
  let customTokens : List TokenInfoWrapper :=
    (s.stored.filter fun t => t.info.chainId == toChainId).map fun t =>
      .customToken t.info t.banned
  let defaultTokens : List TokenInfoWrapper :=
    (env.defaultTokens.filter fun t => t.chainId == toChainId).map fun t =>
      .defaultToken t
  { s with
    chainId := some toChainId
    tokenList := some (defaultTokens ++ customTokens)
    connected := true }

/-- `disconnect()`: clears `chainId` and `tokenList`, resets `connected`.
The durable store is untouched. -/
def disconnect (s : RegistryState) : RegistryState :=
  { s with chainId := none, tokenList := none, connected := false }

/-- `getByAddress(address, chain)`: first entry of `tokenList` whose address
matches case-insensitively and whose chainId equals `chain` exactly;
`none` when `tokenList` is absent or nothing matches. (The TypeScript
default argument `chain = chainId` is applied at each call site.) -/
def getByAddress (s : RegistryState) (address : String) (chain : Int) :
    Option TokenInfoWrapper :=
  match s.tokenList with
  | none => none
  | some tokens =>
      tokens.find? fun t =>
        toLowerCase t.info.address == toLowerCase address && t.info.chainId == chain

/-- `getBySymbol(symbol, chain)`: first entry whose symbol matches
case-insensitively and whose chainId equals `chain` exactly. -/
def getBySymbol (s : RegistryState) (symbol : String) (chain : Int) :
    Option TokenInfoWrapper :=
  match s.tokenList with
  | none => none
  | some tokens =>
      tokens.find? fun t =>
        toLowerCase t.info.symbol == toLowerCase symbol && t.info.chainId == chain

/-- `getByDripsAssetId(dripsAssetId, chain)`: resolves the asset id to an
address via the external resolver inside the scan predicate, then matches
like `getByAddress`. -/
def getByDripsAssetId (env : Env) (s : RegistryState) (dripsAssetId : String)
    (chain : Int) : Option TokenInfoWrapper :=
  match s.tokenList with
  | none => none
  | some tokens =>
      tokens.find? fun t =>
        let assetAddress := env.getAddressFromId dripsAssetId
        toLowerCase t.info.address == toLowerCase assetAddress && t.info.chainId == chain

/-- Modelled from the spec: `createCustomToken(descriptor)` of the
Persistence Adapter (`stored-custom-tokens` is not among the sources).
Per spec section 4.3 it "persists the descriptor as a new custom entry",
modelled as appending the record `{descriptor, banned: false}` to the
durable list. -/
def createCustomToken (stored : List StoredToken) (tokenInfo : TokenInfo) :
    List StoredToken :=
  stored ++ [{ info := tokenInfo, banned := false }]

/-- Modelled from the spec: `deleteCustomToken(entry)` of the Persistence
Adapter (`stored-custom-tokens` is not among the sources). Per spec
section 4.3 it "deletes the entry from the Persistence Adapter", modelled
as erasing the first occurrence of that entry from the durable list. -/
def deleteCustomToken (stored : List StoredToken) (entry : StoredToken) :
    List StoredToken :=
  stored.erase entry

/-- Modelled from the spec: `updateCustomToken(address, entry)` of the
Persistence Adapter (`stored-custom-tokens` is not among the sources).
It "writes the updated {descriptor, banned} record" for the given
address, modelled as replacing the first durable record whose address
matches case-insensitively. -/
def updateCustomToken (stored : List StoredToken) (address : String)
    (entry : StoredToken) : List StoredToken :=
  match stored with
  | [] => []
  | t :: rest =>
      if toLowerCase t.info.address == toLowerCase address then entry :: rest
      else t :: updateCustomToken rest address entry

/-- `addCustomToken(tokenInfo)`: silently returns when disconnected;
asserts that no current entry has the same raw address (case-sensitive);
persists the descriptor unconditionally; appends a `Custom{banned:false}`
entry to `tokenList` only when the descriptor's chainId equals the active
one. -/
def addCustomToken (s : RegistryState) (tokenInfo : TokenInfo) :
    Except StoreError RegistryState :=
  match s.tokenList with
  | none => .ok s
  | some tokens =>
      if (tokens.find? fun t => t.info.address == tokenInfo.address).isSome then
        .error .alreadyExists
      else
        let stored' := createCustomToken s.stored tokenInfo
        if s.chainId != some tokenInfo.chainId then
          .ok { s with stored := stored' }
        else
          .ok { s with
            stored := stored'
            tokenList := some (tokens ++ [.customToken tokenInfo false]) }

/-- `removeCustomToken(address, chainId)`: silently returns when
disconnected; asserts the `getByAddress` lookup finds a custom entry;
deletes it from the durable store; then removes every entry of
`tokenList` whose lower-cased address matches the found entry's. -/
def removeCustomToken (s : RegistryState) (address : String) (chainId : Int) :
    Except StoreError RegistryState :=
  match s.tokenList with
  | none => .ok s
  | some tokens =>
      match getByAddress s address chainId with
      | some (.customToken info banned) =>
          let stored' := deleteCustomToken s.stored { info := info, banned := banned }
          let tokens' := tokens.filter fun v =>
            !(toLowerCase v.info.address == toLowerCase info.address)
          .ok { s with stored := stored', tokenList := some tokens' }
      | _ => .error .notFound

/-- `setCustomTokenBanStatus(address, chainId, banned)`: silently returns
when disconnected; asserts the `getByAddress` lookup finds a custom
entry; writes the updated record durably; then splices the new value in
at the found entry's position. (`tokens.indexOf(token)` with reference
equality is the index at which `tokens.find` stopped, i.e. the first
index satisfying the lookup predicate, hence `List.findIdx`.) -/
def setCustomTokenBanStatus (s : RegistryState) (address : String)
    (chainId : Int) (banned : Bool) : Except StoreError RegistryState :=
  match s.tokenList with
  | none => .ok s
  | some tokens =>
      match getByAddress s address chainId with
      | some (.customToken info _) =>
          let newValue : TokenInfoWrapper := .customToken info banned
          let stored' := updateCustomToken s.stored address
            { info := info, banned := banned }
          let idx := tokens.findIdx fun t =>
            toLowerCase t.info.address == toLowerCase address && t.info.chainId == chainId
          .ok { s with stored := stored', tokenList := some (tokens.set idx newValue) }
      | _ => .error .notFound

/-- One call of the custom token manager. -/
inductive MutOp where
  | add (tokenInfo : TokenInfo)
  | remove (address : String) (chainId : Int)
  | setBan (address : String) (chainId : Int) (banned : Bool)
deriving DecidableEq, Repr

/-- Run one mutating call against the module state: on a thrown assertion
the module state is unchanged. -/
def applyMutOp (s : RegistryState) : MutOp → RegistryState
  | .add tokenInfo =>
      match addCustomToken s tokenInfo with
      | .ok s' => s'
      | .error _ => s
  | .remove address chainId =>
      match removeCustomToken s address chainId with
      | .ok s' => s'
      | .error _ => s
  | .setBan address chainId banned =>
      match setCustomTokenBanStatus s address chainId banned with
      | .ok s' => s'
      | .error _ => s

/-- Run a sequence of mutating calls. -/
def applyMutOps (s : RegistryState) (ops : List MutOp) : RegistryState :=
  ops.foldl applyMutOp s

/-- The current entries, empty when disconnected. -/
def entriesOf (s : RegistryState) : List TokenInfoWrapper :=
  s.tokenList.getD []

/-- The custom entries of the current `tokenList`. -/
def customEntriesOf (s : RegistryState) : List TokenInfoWrapper :=
  entriesOf s |>.filter TokenInfoWrapper.isCustom

/-- The lookup key of an entry: lower-cased address paired with chain id. -/
def wrapperKey (t : TokenInfoWrapper) : String × Int :=
  (toLowerCase t.info.address, t.info.chainId)

/-- The registry invariant of spec section 3: within the entries, the pair
(lower-cased address, chainId) is unique — hence in particular no default
and custom entry coexist for one pair. -/
def keysUnique (ts : List TokenInfoWrapper) : Prop :=
  ts.Pairwise fun a b => wrapperKey a ≠ wrapperKey b

instance (ts : List TokenInfoWrapper) : Decidable (keysUnique ts) := by
  unfold keysUnique; infer_instance

/-- Spec-side match predicate of the symbol lookup (written from the spec's
words for claim C9): case-insensitive symbol equality and exact chain-id
equality. -/
def symbolMatches (symbol : String) (chain : Int) (t : TokenInfoWrapper) : Prop :=
  toLowerCase t.info.symbol = toLowerCase symbol ∧ t.info.chainId = chain

instance (symbol : String) (chain : Int) (t : TokenInfoWrapper) :
    Decidable (symbolMatches symbol chain t) := by
  unfold symbolMatches; infer_instance

/-- The chain-scoping invariant of claim C3: the active chain is `C` and
every entry's chainId is `C`. -/
def ChainInv (C : Int) (s : RegistryState) : Prop :=
  s.chainId = some C ∧ ∀ t ∈ entriesOf s, t.info.chainId = C

deriving instance DecidableEq for Except

/-! ### Concrete fixtures for counterexamples and witnesses -/

/-- An environment with an empty default catalog. -/
def emptyEnv : Env := { defaultTokens := [], getAddressFromId := fun _ => "0x0" }

/-- A default-catalog token on chain 1. -/
def tokFoo : TokenInfo :=
  { address := "0xAAA", chainId := 1, symbol := "FOO", decimals := 18, name := "Foo" }

/-- A custom token on chain 1, durably stored. -/
def tokBar : TokenInfo :=
  { address := "0xBBB", chainId := 1, symbol := "BAR", decimals := 18, name := "Bar" }

/-- A token on chain 2 with an address fresh on chain 1. -/
def tokOther : TokenInfo :=
  { address := "0xDDD", chainId := 2, symbol := "OTH", decimals := 18, name := "Oth" }

/-- A token on chain 1 with an address fresh in `witState`. -/
def tokFresh : TokenInfo :=
  { address := "0xEEE", chainId := 1, symbol := "FRS", decimals := 18, name := "Frs" }

/-- A sample environment: one default token, resolver returning `tokBar`'s
address. -/
def witEnv : Env := { defaultTokens := [tokFoo], getAddressFromId := fun _ => "0xBBB" }

/-- A sample durable store holding `tokBar`. -/
def witStored : List StoredToken := [{ info := tokBar, banned := false }]

/-- A sample connected state on chain 1: one default and one custom entry. -/
def witState : RegistryState := connect witEnv (initialState witStored) 1

/-- The entries of `witState`. -/
def witEntries : List TokenInfoWrapper :=
  [.defaultToken tokFoo, .customToken tokBar false]

/-- Counterexample token: upper-case address variant. -/
def cexTokA : TokenInfo :=
  { address := "0xFFF", chainId := 1, symbol := "CEX", decimals := 18, name := "CexA" }

/-- Counterexample token: lower-case address variant of `cexTokA`, which the
case-sensitive duplicate check of `addCustomToken` does not catch. -/
def cexTokB : TokenInfo :=
  { address := "0xfff", chainId := 1, symbol := "CEX", decimals := 18, name := "CexB" }

/-- Reachable state: connect to chain 1 over an empty store and an empty
default catalog, then add `cexTokA`. -/
def cexState1 : RegistryState :=
  applyMutOp (connect emptyEnv (initialState []) 1) (.add cexTokA)

/-- Reachable state: `cexState1` after also adding `cexTokB` (same address
up to case). -/
def cexState2 : RegistryState := applyMutOp cexState1 (.add cexTokB)

/-- Reachable state: `cexState2` after removing by address `0xFFF`, which
drops both in-memory entries but erases only one durable record. -/
def cexState3 : RegistryState := applyMutOp cexState2 (.remove "0xFFF" 1)

/-! ## Helper lemmas -/

theorem applyMutOp_add_eq (s : RegistryState) (d : TokenInfo) :
    applyMutOp s (.add d) =
      match addCustomToken s d with | .ok s' => s' | .error _ => s := rfl

theorem applyMutOp_remove_eq (s : RegistryState) (a : String) (c : Int) :
    applyMutOp s (.remove a c) =
      match removeCustomToken s a c with | .ok s' => s' | .error _ => s := rfl

theorem applyMutOp_setBan_eq (s : RegistryState) (a : String) (c : Int) (b : Bool) :
    applyMutOp s (.setBan a c b) =
      match setCustomTokenBanStatus s a c b with | .ok s' => s' | .error _ => s := rfl

theorem getElem?_findIdx_of_find? {α : Type} (p : α → Bool) :
    ∀ (l : List α) (t : α), l.find? p = some t → l[l.findIdx p]? = some t := by
  intro l
  induction l with
  | nil => intro t h; simp at h
  | cons a tl ih =>
    intro t h
    by_cases ha : p a = true
    · rw [List.find?_cons_of_pos _ ha] at h
      cases h
      simp [List.findIdx_cons, ha]
    · rw [List.find?_cons_of_neg _ ha] at h
      rw [Bool.not_eq_true] at ha
      simp only [List.findIdx_cons, ha, cond_false, List.getElem?_cons_succ]
      exact ih t h

theorem set_getElem?_self {α : Type} :
    ∀ (l : List α) (i : Nat) (x : α), l[i]? = some x → l.set i x = l := by
  intro l
  induction l with
  | nil => intro i x h; simp at h
  | cons a tl ih =>
    intro i x h
    cases i with
    | zero =>
        rw [List.getElem?_cons_zero] at h
        cases h
        rfl
    | succ n =>
        rw [List.getElem?_cons_succ] at h
        simp only [List.set]
        rw [ih n x h]

theorem find?_set_findIdx {α : Type} (p : α → Bool) (v : α) (hv : p v = true) :
    ∀ (l : List α) (t : α), l.find? p = some t →
      (l.set (l.findIdx p) v).find? p = some v := by
  intro l
  induction l with
  | nil => intro t h; simp at h
  | cons a tl ih =>
    intro t h
    by_cases ha : p a = true
    · simp only [List.findIdx_cons, ha, cond_true, List.set]
      exact List.find?_cons_of_pos _ hv
    · rw [List.find?_cons_of_neg _ ha] at h
      rw [Bool.not_eq_true] at ha
      simp only [List.findIdx_cons, ha, cond_false, List.set]
      rw [List.find?_cons_of_neg _ (by simp [ha])]
      exact ih t h

theorem keysUnique_iff_nodup (ts : List TokenInfoWrapper) :
    keysUnique ts ↔ (ts.map wrapperKey).Nodup := by
  unfold keysUnique List.Nodup
  exact (List.pairwise_map).symm

/-! ## Claim theorems -/

/-- Claim C6: for every asset id and chain argument, `getByDripsAssetId`
returns exactly the result of resolving the asset id once through the
external resolver and delegating to `getByAddress`. -/
theorem getByDripsAssetId_eq_getByAddress (env : Env) (s : RegistryState)
    (dripsAssetId : String) (chain : Int) :
    getByDripsAssetId env s dripsAssetId chain =
      getByAddress s (env.getAddressFromId dripsAssetId) chain := by
  unfold getByDripsAssetId getByAddress
  cases s.tokenList <;> rfl

/-- Claim C4: while disconnected (`tokenList` absent) every lookup returns
not-found, and every mutating operation succeeds silently leaving the
whole state — in-memory fields and the durable store alike — unchanged. -/
theorem disconnected_lookups_none_mutations_noop (env : Env) (s : RegistryState)
    (h : s.tokenList = none) :
    (∀ a c, getByAddress s a c = none) ∧
    (∀ y c, getBySymbol s y c = none) ∧
    (∀ i c, getByDripsAssetId env s i c = none) ∧
    (∀ d, addCustomToken s d = .ok s) ∧
    (∀ a c, removeCustomToken s a c = .ok s) ∧
    (∀ a c b, setCustomTokenBanStatus s a c b = .ok s) := by
  refine ⟨?_, ?_, ?_, ?_, ?_, ?_⟩ <;> intros <;>
    simp [getByAddress, getBySymbol, getByDripsAssetId, addCustomToken,
      removeCustomToken, setCustomTokenBanStatus, h]

/-- Claim C2: in a connected state, `addCustomToken(d)` fails — with
`AlreadyExists` — exactly when some existing entry (default or custom) has
the same raw address as `d`, compared case-sensitively; and on failure the
module state (entries and durable store) is unchanged. -/
theorem addCustomToken_alreadyExists_iff (s : RegistryState)
    (ts : List TokenInfoWrapper) (d : TokenInfo) (h : s.tokenList = some ts) :
    (addCustomToken s d = .error .alreadyExists ↔
      ∃ t ∈ ts, t.info.address = d.address) ∧
    (∀ e, addCustomToken s d = .error e → e = .alreadyExists) ∧
    (∀ e, addCustomToken s d = .error e → applyMutOp s (.add d) = s) := by
  have hbody : addCustomToken s d =
      if (ts.find? fun t => t.info.address == d.address).isSome then
        .error .alreadyExists
      else
        if s.chainId != some d.chainId then
          .ok { s with stored := createCustomToken s.stored d }
        else
          .ok { s with
            stored := createCustomToken s.stored d
            tokenList := some (ts ++ [.customToken d false]) } := by
    unfold addCustomToken
    rw [h]
  by_cases hdup : (ts.find? fun t => t.info.address == d.address).isSome = true
  · rw [if_pos hdup] at hbody
    refine ⟨?_, ?_, ?_⟩
    · rw [hbody]
      simp only [true_iff]
      have := List.find?_isSome.mp hdup
      simpa using this
    · intro e he
      rw [hbody] at he
      cases he
      rfl
    · intro e he
      rw [applyMutOp_add_eq, hbody]
  · rw [Bool.not_eq_true] at hdup
    rw [if_neg (by rw [hdup]; simp)] at hbody
    have hok : ∀ e, addCustomToken s d ≠ .error e := by
      intro e
      rw [hbody]
      split <;> simp
    refine ⟨?_, ?_, ?_⟩
    · constructor
      · intro he
        exact absurd he (hok _)
      · intro ⟨t, hmem, haddr⟩
        exfalso
        have : (ts.find? fun t => t.info.address == d.address).isSome = true :=
          List.find?_isSome.mpr ⟨t, hmem, by simp [haddr]⟩
        rw [hdup] at this
        cases this
    · intro e he
      exact absurd he (hok _)
    · intro e he
      exact absurd he (hok _)

/-- Claim C5: in a connected state, `removeCustomToken(address, chainId)`
fails — with `NotFound` — exactly when the `getByAddress` lookup finds
nothing or finds a `Default` entry (defaults are never removable), and on
failure the module state (entries and durable store) is unchanged. -/
theorem removeCustomToken_notFound_iff (s : RegistryState)
    (ts : List TokenInfoWrapper) (addr : String) (c : Int)
    (h : s.tokenList = some ts) :
    ((∃ e, removeCustomToken s addr c = .error e) ↔
      (getByAddress s addr c = none ∨
        ∃ i, getByAddress s addr c = some (.defaultToken i))) ∧
    (∀ e, removeCustomToken s addr c = .error e →
      e = .notFound ∧ applyMutOp s (.remove addr c) = s) := by
  cases hfind : getByAddress s addr c with
  | none =>
      have hbody : removeCustomToken s addr c = .error .notFound := by
        unfold removeCustomToken
        rw [h, hfind]
      refine ⟨⟨fun _ => Or.inl rfl, fun _ => ⟨_, hbody⟩⟩, ?_⟩
      intro e he
      rw [hbody] at he
      cases he
      exact ⟨rfl, by rw [applyMutOp_remove_eq, hbody]⟩
  | some t =>
      cases t with
      | defaultToken i =>
          have hbody : removeCustomToken s addr c = .error .notFound := by
            unfold removeCustomToken
            rw [h, hfind]
          refine ⟨⟨fun _ => Or.inr ⟨i, rfl⟩, fun _ => ⟨_, hbody⟩⟩, ?_⟩
          intro e he
          rw [hbody] at he
          cases he
          exact ⟨rfl, by rw [applyMutOp_remove_eq, hbody]⟩
      | customToken i b =>
          have hbody : removeCustomToken s addr c =
              .ok { s with
                stored := deleteCustomToken s.stored { info := i, banned := b }
                tokenList := some (ts.filter fun v =>
                  !(toLowerCase v.info.address == toLowerCase i.address)) } := by
            unfold removeCustomToken
            rw [h, hfind]
          refine ⟨⟨?_, ?_⟩, ?_⟩
          · intro ⟨e, he⟩
            rw [hbody] at he
            cases he
          · intro hor
            rcases hor with hnone | ⟨j, hj⟩
            · cases hnone
            · simp at hj
          · intro e he
            rw [hbody] at he
            cases he

theorem addCustomToken_eq (s : RegistryState) (ts : List TokenInfoWrapper)
    (d : TokenInfo) (h : s.tokenList = some ts) :
    addCustomToken s d =
      if (ts.find? fun t => t.info.address == d.address).isSome then
        .error .alreadyExists
      else if s.chainId != some d.chainId then
        .ok { s with stored := createCustomToken s.stored d }
      else
        .ok { s with
          stored := createCustomToken s.stored d
          tokenList := some (ts ++ [.customToken d false]) } := by
  unfold addCustomToken
  rw [h]

/-- Claim C9: in a connected state, `getBySymbol` returns exactly the first
entry in list order matching the symbol case-insensitively on the exact
chain, and not-found exactly when no entry matches. -/
theorem getBySymbol_first_match (s : RegistryState) (ts : List TokenInfoWrapper)
    (symbol : String) (chain : Int) (h : s.tokenList = some ts) :
    (∀ e, getBySymbol s symbol chain = some e ↔
      (symbolMatches symbol chain e ∧
        ∃ pre post, ts = pre ++ e :: post ∧
          ∀ x ∈ pre, ¬ symbolMatches symbol chain x)) ∧
    (getBySymbol s symbol chain = none ↔
      ∀ e ∈ ts, ¬ symbolMatches symbol chain e) := by
  have hbody : getBySymbol s symbol chain =
      ts.find? fun t =>
        toLowerCase t.info.symbol == toLowerCase symbol && t.info.chainId == chain := by
    unfold getBySymbol
    rw [h]
  have hpred : ∀ t : TokenInfoWrapper,
      ((toLowerCase t.info.symbol == toLowerCase symbol &&
        t.info.chainId == chain) = true) ↔ symbolMatches symbol chain t := by
    intro t
    simp [symbolMatches, Bool.and_eq_true, beq_iff_eq]
  constructor
  · intro e
    rw [hbody, List.find?_eq_some]
    constructor
    · rintro ⟨hpe, pre, post, rfl, hpre⟩
      refine ⟨(hpred e).mp hpe, pre, post, rfl, ?_⟩
      intro x hx hm
      have hfalse := hpre x hx
      rw [Bool.not_eq_true'] at hfalse
      rw [← hpred x] at hm
      rw [hfalse] at hm
      cases hm
    · rintro ⟨hm, pre, post, rfl, hpre⟩
      refine ⟨(hpred e).mpr hm, pre, post, rfl, ?_⟩
      intro x hx
      rw [Bool.not_eq_true']
      cases hpx : (toLowerCase x.info.symbol == toLowerCase symbol &&
          x.info.chainId == chain) with
      | false => rfl
      | true => exact absurd ((hpred x).mp hpx) (hpre x hx)
  · rw [hbody, List.find?_eq_none]
    constructor
    · intro hall e he hm
      exact absurd ((hpred e).mpr hm) (hall e he)
    · intro hall e he hm
      exact absurd ((hpred e).mp hm) (hall e he)

theorem chainInv_connect (env : Env) (s : RegistryState) (C : Int) :
    ChainInv C (connect env s C) := by
  refine ⟨rfl, ?_⟩
  intro t ht
  simp only [connect, entriesOf, Option.getD_some] at ht
  rcases List.mem_append.mp ht with hd | hc
  · rcases List.mem_map.mp hd with ⟨x, hx, rfl⟩
    have := (List.mem_filter.mp hx).2
    simpa [TokenInfoWrapper.info] using this
  · rcases List.mem_map.mp hc with ⟨x, hx, rfl⟩
    have := (List.mem_filter.mp hx).2
    simpa [TokenInfoWrapper.info] using this

theorem chainInv_applyMutOp (C : Int) (s : RegistryState) (op : MutOp)
    (h : ChainInv C s) : ChainInv C (applyMutOp s op) := by
  obtain ⟨hc, he⟩ := h
  have hent : ∀ t ∈ entriesOf s, t.info.chainId = C := he
  cases op with
  | add d =>
      rw [applyMutOp_add_eq]
      cases hts : s.tokenList with
      | none =>
          rw [show addCustomToken s d = .ok s from by unfold addCustomToken; rw [hts]]
          exact ⟨hc, he⟩
      | some ts =>
          rw [addCustomToken_eq s ts d hts]
          by_cases hdup : (ts.find? fun t => t.info.address == d.address).isSome = true
          · rw [if_pos hdup]
            exact ⟨hc, he⟩
          · rw [Bool.not_eq_true] at hdup
            rw [if_neg (by rw [hdup]; simp)]
            by_cases hch : (s.chainId != some d.chainId) = true
            · rw [if_pos hch]
              exact ⟨hc, fun t ht => he t (by simpa [entriesOf] using ht)⟩
            · rw [if_neg hch]
              refine ⟨hc, ?_⟩
              intro t ht
              simp only [entriesOf, Option.getD_some] at ht
              rcases List.mem_append.mp ht with hmem | hnew
              · exact he t (by simp [entriesOf, hts]; exact hmem)
              · have ht' : t = .customToken d false := by simpa using hnew
                subst ht'
                simp only [bne_iff_ne, ne_eq, not_not] at hch
                rw [hc] at hch
                have : C = d.chainId := by
                  exact Option.some_injective _ hch
                simp [TokenInfoWrapper.info, ← this]
  | remove a c =>
      rw [applyMutOp_remove_eq]
      cases hts : s.tokenList with
      | none =>
          rw [show removeCustomToken s a c = .ok s from by
            unfold removeCustomToken; rw [hts]]
          exact ⟨hc, he⟩
      | some ts =>
          cases hfind : getByAddress s a c with
          | none =>
              rw [show removeCustomToken s a c = .error .notFound from by
                unfold removeCustomToken; rw [hts, hfind]]
              exact ⟨hc, he⟩
          | some t =>
              cases t with
              | defaultToken i =>
                  rw [show removeCustomToken s a c = .error .notFound from by
                    unfold removeCustomToken; rw [hts, hfind]]
                  exact ⟨hc, he⟩
              | customToken i b =>
                  rw [show removeCustomToken s a c =
                      .ok { s with
                        stored := deleteCustomToken s.stored { info := i, banned := b }
                        tokenList := some (ts.filter fun v =>
                          !(toLowerCase v.info.address == toLowerCase i.address)) } from by
                    unfold removeCustomToken; rw [hts, hfind]]
                  refine ⟨hc, ?_⟩
                  intro x hx
                  simp only [entriesOf, Option.getD_some] at hx
                  exact he x (by simp [entriesOf, hts]; exact (List.mem_filter.mp hx).1)
  | setBan a c b =>
      rw [applyMutOp_setBan_eq]
      cases hts : s.tokenList with
      | none =>
          rw [show setCustomTokenBanStatus s a c b = .ok s from by
            unfold setCustomTokenBanStatus; rw [hts]]
          exact ⟨hc, he⟩
      | some ts =>
          cases hfind : getByAddress s a c with
          | none =>
              rw [show setCustomTokenBanStatus s a c b = .error .notFound from by
                unfold setCustomTokenBanStatus; rw [hts, hfind]]
              exact ⟨hc, he⟩
          | some t =>
              cases t with
              | defaultToken i =>
                  rw [show setCustomTokenBanStatus s a c b = .error .notFound from by
                    unfold setCustomTokenBanStatus; rw [hts, hfind]]
                  exact ⟨hc, he⟩
              | customToken i b0 =>
                  rw [show setCustomTokenBanStatus s a c b =
                      .ok { s with
                        stored := updateCustomToken s.stored a { info := i, banned := b }
                        tokenList := some (ts.set (ts.findIdx fun t =>
                          toLowerCase t.info.address == toLowerCase a &&
                            t.info.chainId == c) (.customToken i b)) } from by
                    unfold setCustomTokenBanStatus; rw [hts, hfind]]
                  refine ⟨hc, ?_⟩
                  intro x hx
                  simp only [entriesOf, Option.getD_some] at hx
                  rcases List.mem_or_eq_of_mem_set hx with hmem | hxv
                  · exact he x (by simp [entriesOf, hts]; exact hmem)
                  · subst hxv
                    have hfind' : ts.find? (fun t =>
                        toLowerCase t.info.address == toLowerCase a &&
                          t.info.chainId == c) = some (.customToken i b0) := by
                      have := hfind
                      unfold getByAddress at this
                      rw [hts] at this
                      exact this
                    have hmem := List.mem_of_find?_eq_some hfind'
                    have := he (.customToken i b0) (by simp [entriesOf, hts]; exact hmem)
                    simpa [TokenInfoWrapper.info] using this

theorem chainInv_applyMutOps (C : Int) (ops : List MutOp) :
    ∀ s : RegistryState, ChainInv C s → ChainInv C (applyMutOps s ops) := by
  induction ops with
  | nil => intro s h; exact h
  | cons op rest ih =>
      intro s h
      exact ih (applyMutOp s op) (chainInv_applyMutOp C s op h)

/-- Claim C3: after `connect(C)` and any sequence of `addCustomToken`,
`removeCustomToken`, `setCustomTokenBanStatus` calls (no further connect),
every entry of `tokenList` has chainId `C`. -/
theorem entries_chainId_after_connect (env : Env) (s : RegistryState) (C : Int)
    (ops : List MutOp) :
    ∀ t ∈ entriesOf (applyMutOps (connect env s C) ops), t.info.chainId = C :=
  fun t ht =>
    (chainInv_applyMutOps C ops (connect env s C) (chainInv_connect env s C)).2 t ht

theorem setBan_lookup (s : RegistryState) (ts : List TokenInfoWrapper)
    (addr : String) (c : Int) (b : Bool) (info : TokenInfo) (b0 : Bool)
    (hts : s.tokenList = some ts)
    (hfind : getByAddress s addr c = some (.customToken info b0)) :
    ∃ s', setCustomTokenBanStatus s addr c b = .ok s' ∧
      s'.tokenList = some (ts.set (ts.findIdx fun t =>
        toLowerCase t.info.address == toLowerCase addr && t.info.chainId == c)
        (.customToken info b)) ∧
      getByAddress s' addr c = some (.customToken info b) := by
  have hfind' : ts.find? (fun t =>
      toLowerCase t.info.address == toLowerCase addr && t.info.chainId == c) =
      some (.customToken info b0) := by
    have := hfind
    unfold getByAddress at this
    rw [hts] at this
    exact this
  have hok : setCustomTokenBanStatus s addr c b =
      .ok { s with
        stored := updateCustomToken s.stored addr { info := info, banned := b }
        tokenList := some (ts.set (ts.findIdx fun t =>
          toLowerCase t.info.address == toLowerCase addr && t.info.chainId == c)
          (.customToken info b)) } := by
    unfold setCustomTokenBanStatus
    rw [hts, hfind]
  refine ⟨_, hok, rfl, ?_⟩
  have hv0 := List.find?_some hfind'
  have hv' : (toLowerCase (TokenInfoWrapper.customToken info b).info.address ==
      toLowerCase addr &&
      (TokenInfoWrapper.customToken info b).info.chainId == c) = true := hv0
  exact find?_set_findIdx
    (fun t => toLowerCase t.info.address == toLowerCase addr && t.info.chainId == c)
    (TokenInfoWrapper.customToken info b) hv' ts
    (TokenInfoWrapper.customToken info b0) hfind'

/-- Claim C7: in a connected state where `getByAddress` finds a custom
entry, banning it makes the same lookup return `banned = true`, and a
subsequent un-ban round-trips the lookup back to `banned = false`. -/
theorem setBan_roundTrip (s : RegistryState) (ts : List TokenInfoWrapper)
    (addr : String) (c : Int) (info : TokenInfo) (b0 : Bool)
    (hts : s.tokenList = some ts)
    (hfind : getByAddress s addr c = some (.customToken info b0)) :
    ∃ s1, setCustomTokenBanStatus s addr c true = .ok s1 ∧
      getByAddress s1 addr c = some (.customToken info true) ∧
      ∃ s2, setCustomTokenBanStatus s1 addr c false = .ok s2 ∧
        getByAddress s2 addr c = some (.customToken info false) := by
  obtain ⟨s1, h1, hl1, hg1⟩ := setBan_lookup s ts addr c true info b0 hts hfind
  obtain ⟨s2, h2, _, hg2⟩ := setBan_lookup s1 _ addr c false info true hl1 hg1
  exact ⟨s1, h1, hg1, s2, h2, hg2⟩

/-- Claim C10: the duplicate check of `addCustomToken` consults only the
in-memory entries: in a connected state on chain `C`, for a descriptor on
a different chain whose address is fresh among the current entries, the
call never fails regardless of the durable store's content, writes the
descriptor durably while leaving `tokenList` untouched, and an immediate
second identical call succeeds again, duplicating the durable record. -/
theorem addCustomToken_crossChain (s : RegistryState)
    (ts : List TokenInfoWrapper) (d : TokenInfo) (C : Int)
    (hts : s.tokenList = some ts) (hcid : s.chainId = some C)
    (hne : d.chainId ≠ C)
    (hfresh : ∀ t ∈ ts, t.info.address ≠ d.address) :
    addCustomToken s d = .ok { s with stored := createCustomToken s.stored d } ∧
    (∀ (st : List StoredToken) (e : StoreError),
      addCustomToken { s with stored := st } d ≠ .error e) ∧
    addCustomToken { s with stored := createCustomToken s.stored d } d =
      .ok { s with stored := createCustomToken (createCustomToken s.stored d) d } := by
  have hnodup : (ts.find? fun t => t.info.address == d.address) = none := by
    rw [List.find?_eq_none]
    intro t ht
    simp [hfresh t ht]
  have hch : (s.chainId != some d.chainId) = true := by
    rw [bne_iff_ne, hcid]
    intro hsome
    exact hne (Option.some_injective _ hsome).symm
  have hone : ∀ (st : List StoredToken),
      addCustomToken { s with stored := st } d =
        .ok { s with stored := createCustomToken st d } := by
    intro st
    rw [addCustomToken_eq { s with stored := st } ts d hts,
      if_neg (by rw [hnodup]; simp), if_pos hch]
  refine ⟨?_, ?_, ?_⟩
  · have := hone s.stored
    simpa using this
  · intro st e
    rw [hone st]
    simp
  · have h2 := hone (createCustomToken s.stored d)
    simpa using h2

/-- Claim C8 (amended): `disconnect` leaves the durable store untouched,
and whenever the in-memory custom entries coincide with the durable
records of chain `C` (as they do right after a `connect(C)`),
`disconnect()` followed by `connect(C)` reproduces the same custom-entry
list. -/
theorem disconnect_connect_roundTrip (env : Env) (s : RegistryState) (C : Int) :
    (disconnect s).stored = s.stored ∧
    (customEntriesOf s =
        (s.stored.filter fun t => t.info.chainId == C).map
          (fun t => .customToken t.info t.banned) →
      customEntriesOf (connect env (disconnect s) C) = customEntriesOf s) := by
  refine ⟨rfl, ?_⟩
  intro hcoh
  rw [hcoh]
  simp only [customEntriesOf, entriesOf, connect, disconnect, Option.getD_some,
    List.filter_append, List.filter_map]
  have hdef : (TokenInfoWrapper.isCustom ∘ fun t : TokenInfo => .defaultToken t) =
      fun _ => false := by
    funext t
    rfl
  have hcust : (TokenInfoWrapper.isCustom ∘
      fun t : StoredToken => TokenInfoWrapper.customToken t.info t.banned) =
      fun _ => true := by
    funext t
    rfl
  rw [hdef, hcust, List.filter_false, List.filter_true, List.map_nil, List.nil_append]

theorem keysUnique_set_sameKey (ts : List TokenInfoWrapper)
    (p : TokenInfoWrapper → Bool) (t v : TokenInfoWrapper)
    (hfind : ts.find? p = some t) (hk : wrapperKey v = wrapperKey t)
    (hu : keysUnique ts) : keysUnique (ts.set (ts.findIdx p) v) := by
  rw [keysUnique_iff_nodup] at hu ⊢
  rw [List.map_set]
  have hget : ts[ts.findIdx p]? = some t := getElem?_findIdx_of_find? p ts t hfind
  have hget2 : (ts.map wrapperKey)[ts.findIdx p]? = some (wrapperKey t) := by
    rw [List.getElem?_map, hget]
    rfl
  rw [hk, set_getElem?_self _ _ _ hget2]
  exact hu

theorem keysUnique_append_fresh (ts : List TokenInfoWrapper)
    (v : TokenInfoWrapper) (hu : keysUnique ts)
    (hfresh : ∀ t ∈ ts, wrapperKey t ≠ wrapperKey v) :
    keysUnique (ts ++ [v]) := by
  unfold keysUnique at hu ⊢
  rw [List.pairwise_append]
  refine ⟨hu, List.pairwise_singleton _ _, ?_⟩
  intro a ha b hb
  rw [List.mem_singleton.mp hb]
  exact hfresh a ha

/-- Claim C1 (amended): the key-uniqueness invariant — (lower-cased
address, chainId) unique within the entries, hence no default/custom
coexistence for one pair — is preserved by `removeCustomToken` and
`setCustomTokenBanStatus`; it is preserved by `addCustomToken` only when
the descriptor's key is fresh among the current entries (the
case-sensitive duplicate check does not guarantee this, see the
counterexample); and `connect` establishes it whenever the filtered
default and durable lists have unique, mutually disjoint keys. -/
theorem keysUnique_preservation (C : Int) :
    (∀ (s : RegistryState) (a : String) (c : Int), keysUnique (entriesOf s) →
      keysUnique (entriesOf (applyMutOp s (.remove a c)))) ∧
    (∀ (s : RegistryState) (a : String) (c : Int) (b : Bool),
      keysUnique (entriesOf s) →
      keysUnique (entriesOf (applyMutOp s (.setBan a c b)))) ∧
    (∀ (s : RegistryState) (d : TokenInfo), keysUnique (entriesOf s) →
      (∀ t ∈ entriesOf s, wrapperKey t ≠ (toLowerCase d.address, d.chainId)) →
      keysUnique (entriesOf (applyMutOp s (.add d)))) ∧
    (∀ (env : Env) (s : RegistryState),
      keysUnique ((env.defaultTokens.filter fun t => t.chainId == C).map
        (fun t => .defaultToken t)) →
      keysUnique ((s.stored.filter fun t => t.info.chainId == C).map
        (fun t => .customToken t.info t.banned)) →
      (∀ a ∈ (env.defaultTokens.filter fun t => t.chainId == C).map
          (fun t => TokenInfoWrapper.defaultToken t),
        ∀ b ∈ (s.stored.filter fun t => t.info.chainId == C).map
          (fun t => TokenInfoWrapper.customToken t.info t.banned),
        wrapperKey a ≠ wrapperKey b) →
      keysUnique (entriesOf (connect env s C))) := by
  refine ⟨?_, ?_, ?_, ?_⟩
  · intro s a c hu
    rw [applyMutOp_remove_eq]
    cases hts : s.tokenList with
    | none =>
        rw [show removeCustomToken s a c = .ok s from by
          unfold removeCustomToken; rw [hts]]
        exact hu
    | some ts =>
        cases hfind : getByAddress s a c with
        | none =>
            rw [show removeCustomToken s a c = .error .notFound from by
              unfold removeCustomToken; rw [hts, hfind]]
            exact hu
        | some t =>
            cases t with
            | defaultToken i =>
                rw [show removeCustomToken s a c = .error .notFound from by
                  unfold removeCustomToken; rw [hts, hfind]]
                exact hu
            | customToken i b =>
                rw [show removeCustomToken s a c =
                    .ok { s with
                      stored := deleteCustomToken s.stored { info := i, banned := b }
                      tokenList := some (ts.filter fun v =>
                        !(toLowerCase v.info.address == toLowerCase i.address)) } from by
                  unfold removeCustomToken; rw [hts, hfind]]
                simp only [entriesOf, Option.getD_some]
                have hu' : keysUnique ts := by
                  rw [entriesOf, hts] at hu
                  exact hu
                exact List.Pairwise.filter _ hu'
  · intro s a c b hu
    rw [applyMutOp_setBan_eq]
    cases hts : s.tokenList with
    | none =>
        rw [show setCustomTokenBanStatus s a c b = .ok s from by
          unfold setCustomTokenBanStatus; rw [hts]]
        exact hu
    | some ts =>
        cases hfind : getByAddress s a c with
        | none =>
            rw [show setCustomTokenBanStatus s a c b = .error .notFound from by
              unfold setCustomTokenBanStatus; rw [hts, hfind]]
            exact hu
        | some t =>
            cases t with
            | defaultToken i =>
                rw [show setCustomTokenBanStatus s a c b = .error .notFound from by
                  unfold setCustomTokenBanStatus; rw [hts, hfind]]
                exact hu
            | customToken i b0 =>
                rw [show setCustomTokenBanStatus s a c b =
                    .ok { s with
                      stored := updateCustomToken s.stored a { info := i, banned := b }
                      tokenList := some (ts.set (ts.findIdx fun t =>
                        toLowerCase t.info.address == toLowerCase a &&
                          t.info.chainId == c) (.customToken i b)) } from by
                  unfold setCustomTokenBanStatus; rw [hts, hfind]]
                simp only [entriesOf, Option.getD_some]
                have hu' : keysUnique ts := by
                  rw [entriesOf, hts] at hu
                  exact hu
                have hfind' : ts.find? (fun t =>
                    toLowerCase t.info.address == toLowerCase a &&
                      t.info.chainId == c) = some (.customToken i b0) := by
                  have := hfind
                  unfold getByAddress at this
                  rw [hts] at this
                  exact this
                exact keysUnique_set_sameKey ts _ (.customToken i b0)
                  (.customToken i b) hfind' rfl hu'
  · intro s d hu hfresh
    rw [applyMutOp_add_eq]
    cases hts : s.tokenList with
    | none =>
        rw [show addCustomToken s d = .ok s from by
          unfold addCustomToken; rw [hts]]
        exact hu
    | some ts =>
        rw [addCustomToken_eq s ts d hts]
        by_cases hdup : (ts.find? fun t => t.info.address == d.address).isSome = true
        · rw [if_pos hdup]
          exact hu
        · rw [Bool.not_eq_true] at hdup
          rw [if_neg (by rw [hdup]; simp)]
          by_cases hch : (s.chainId != some d.chainId) = true
          · rw [if_pos hch]
            simpa [entriesOf] using hu
          · rw [if_neg hch]
            simp only [entriesOf, Option.getD_some]
            have hu' : keysUnique ts := by
              rw [entriesOf, hts] at hu
              exact hu
            refine keysUnique_append_fresh ts _ hu' ?_
            intro t ht
            have := hfresh t (by rw [entriesOf, hts]; exact ht)
            simpa [wrapperKey, TokenInfoWrapper.info] using this
  · intro env s hd hcst hdisj
    simp only [connect, entriesOf, Option.getD_some]
    unfold keysUnique at hd hcst ⊢
    rw [List.pairwise_append]
    exact ⟨hd, hcst, hdisj⟩

/-- Claim C1 counterexample: in the reachable connected state `cexState1`
the key-uniqueness invariant holds, yet `addCustomToken` of `cexTokB` —
whose address differs from `cexTokA`'s only in case — succeeds (the
duplicate check is case-sensitive) and yields a state where two entries
share the pair (lower-cased address, chainId). -/
theorem keysUnique_not_preserved_by_add :
    keysUnique (entriesOf cexState1) ∧
    addCustomToken cexState1 cexTokB = .ok cexState2 ∧
    ¬ keysUnique (entriesOf cexState2) :=
  ⟨by decide, by decide, by decide⟩

/-- Claim C8 counterexample: from the reachable connected state `cexState3`
(obtained by connect, two case-colliding adds, one remove), the
disconnect-then-connect round trip does not reproduce the custom-entry
set: the in-memory custom set is empty while one record survived durably
and reappears. -/
theorem roundTrip_not_reproducing :
    customEntriesOf cexState3 = [] ∧
    (disconnect cexState3).stored = cexState3.stored ∧
    customEntriesOf (connect emptyEnv (disconnect cexState3) 1) =
      [.customToken cexTokB false] ∧
    customEntriesOf (connect emptyEnv (disconnect cexState3) 1) ≠
      customEntriesOf cexState3 :=
  ⟨by decide, by decide, by decide, by decide⟩

theorem addCustomToken_alreadyExists_iff_witness :
    addCustomToken witState tokFoo = .error .alreadyExists ∧
    applyMutOp witState (.add tokFoo) = witState := by
  have h := addCustomToken_alreadyExists_iff witState witEntries tokFoo (by decide)
  have herr : addCustomToken witState tokFoo = .error .alreadyExists :=
    h.1.mpr ⟨.defaultToken tokFoo, by decide, rfl⟩
  exact ⟨herr, h.2.2 _ herr⟩

theorem disconnected_noop_witness :
    getByAddress (initialState witStored) "0xAAA" 1 = none ∧
    getBySymbol (initialState witStored) "FOO" 1 = none ∧
    getByDripsAssetId witEnv (initialState witStored) "42" 1 = none ∧
    addCustomToken (initialState witStored) tokFoo = .ok (initialState witStored) ∧
    removeCustomToken (initialState witStored) "0xBBB" 1 = .ok (initialState witStored) ∧
    setCustomTokenBanStatus (initialState witStored) "0xBBB" 1 true =
      .ok (initialState witStored) := by
  have h := disconnected_lookups_none_mutations_noop witEnv (initialState witStored) rfl
  exact ⟨h.1 "0xAAA" 1, h.2.1 "FOO" 1, h.2.2.1 "42" 1, h.2.2.2.1 tokFoo,
    h.2.2.2.2.1 "0xBBB" 1, h.2.2.2.2.2 "0xBBB" 1 true⟩

theorem removeCustomToken_notFound_iff_witness :
    removeCustomToken witState "0xAAA" 1 = .error .notFound ∧
    applyMutOp witState (.remove "0xAAA" 1) = witState := by
  have h := removeCustomToken_notFound_iff witState witEntries "0xAAA" 1 (by decide)
  obtain ⟨e, he⟩ : ∃ e, removeCustomToken witState "0xAAA" 1 = .error e :=
    h.1.mpr (Or.inr ⟨tokFoo, by decide⟩)
  obtain ⟨he1, he2⟩ := h.2 e he
  rw [he1] at he
  exact ⟨he, he2⟩

theorem getBySymbol_first_match_witness :
    getBySymbol witState "foo" 1 = some (.defaultToken tokFoo) ∧
    getBySymbol witState "NONE" 1 = none := by
  have h := getBySymbol_first_match witState witEntries "foo" 1 (by decide)
  have h2 := getBySymbol_first_match witState witEntries "NONE" 1 (by decide)
  constructor
  · exact (h.1 _).mpr ⟨by decide, [], [.customToken tokBar false], by decide, by decide⟩
  · exact h2.2.mpr (by decide)

theorem entries_chainId_after_connect_witness :
    (TokenInfoWrapper.defaultToken tokFoo).info.chainId = 1 :=
  entries_chainId_after_connect witEnv (initialState witStored) 1 []
    (.defaultToken tokFoo) (by decide)

theorem setBan_roundTrip_witness :
    getByAddress (applyMutOp witState (.setBan "0xbbb" 1 true)) "0xbbb" 1 =
      some (.customToken tokBar true) ∧
    getByAddress (applyMutOp (applyMutOp witState (.setBan "0xbbb" 1 true))
        (.setBan "0xbbb" 1 false)) "0xbbb" 1 =
      some (.customToken tokBar false) := by
  obtain ⟨s1, h1, hg1, s2, h2, hg2⟩ := setBan_roundTrip witState witEntries
    "0xbbb" 1 tokBar false (by decide) (by decide)
  have e1 : applyMutOp witState (.setBan "0xbbb" 1 true) = s1 := by
    rw [applyMutOp_setBan_eq, h1]
  have e2 : applyMutOp s1 (.setBan "0xbbb" 1 false) = s2 := by
    rw [applyMutOp_setBan_eq, h2]
  rw [e1, e2]
  exact ⟨hg1, hg2⟩

theorem addCustomToken_crossChain_witness :
    addCustomToken witState tokOther =
      .ok { witState with stored := createCustomToken witState.stored tokOther } ∧
    addCustomToken
        { witState with stored := createCustomToken witState.stored tokOther }
        tokOther =
      .ok { witState with
        stored := createCustomToken (createCustomToken witState.stored tokOther)
          tokOther } := by
  have h := addCustomToken_crossChain witState witEntries tokOther 1
    (by decide) (by decide) (by decide) (by decide)
  exact ⟨h.1, h.2.2⟩

theorem disconnect_connect_roundTrip_witness :
    (disconnect witState).stored = witState.stored ∧
    customEntriesOf (connect witEnv (disconnect witState) 1) =
      customEntriesOf witState := by
  have h := disconnect_connect_roundTrip witEnv witState 1
  exact ⟨h.1, h.2 (by decide)⟩

theorem keysUnique_preservation_witness :
    keysUnique (entriesOf (applyMutOp witState (.remove "0xbbb" 1))) ∧
    keysUnique (entriesOf (applyMutOp witState (.setBan "0xbbb" 1 true))) ∧
    keysUnique (entriesOf (applyMutOp witState (.add tokFresh))) ∧
    keysUnique (entriesOf (connect witEnv (initialState witStored) 1)) := by
  have h := keysUnique_preservation 1
  exact ⟨h.1 witState "0xbbb" 1 (by decide),
    h.2.1 witState "0xbbb" 1 true (by decide),
    h.2.2.1 witState tokFresh (by decide) (by decide),
    h.2.2.2 witEnv (initialState witStored) (by decide) (by decide) (by decide)⟩
